import Mathlib

/-!
Shallow embedding of the Vault credential auto-renewal subsystem
(`CreateVaultAuth`, `authenticate`, `writeToken`, `StartAutoRenew`,
`autoRenewal` in the controllers package, plus the vault gate in `main`).

The external world (filesystem reads, the remote Vault call, the lifetime
watcher's channels, context cancellation observations) is supplied as an
explicit per-cycle environment `CycleEnv`; each cycle produces an ordered
list of observable events, and the supervisor loop `startAutoRenew`
consumes a finite list of cycle environments (list exhaustion models the
unbounded continuation of the infinite Go loop).
-/

/-- Error taxonomy of `authenticate`: the jwt file read failing, the raw
HTTP request failing, `response.Error()` being non-nil, and `ParseSecret`
failing. -/
inductive AuthError
  | identityUnavailable
  | transport
  | remoteRejected
  | malformedResponse
deriving DecidableEq

/-- The `Auth` block of an `api.Secret`, of which only `ClientToken` is used. -/
structure SecretAuth where
  clientToken : String
deriving DecidableEq

/-- An `api.Secret`; `ParseSecret` may produce one whose `Auth` pointer is nil,
modelled by `auth = none`. -/
structure Secret where
  auth : Option SecretAuth
deriving DecidableEq

/-- Outcome of one `authenticate()` call, supplied by the environment. -/
inductive AuthOutcome
  | failure (e : AuthError)
  | success (s : Secret)
deriving DecidableEq

/-- One channel readiness observed by the `select` in `autoRenewal`'s wait
loop: `ctx.Done()`, `watcher.DoneCh()` (carrying a possibly-nil error), or
`watcher.RenewCh()`. -/
inductive WatchEvent
  | ctxDone
  | doneCh (err : Option String)
  | renewCh
deriving DecidableEq

/-- Observable events of one supervised cycle, in program order. -/
inductive Event
  | jwtRead (ok : Bool)
  | remoteCall
  | logAuthError
  | writeAttempt (ok : Bool)
  | logWriteError
  | logTokenUpdated
  | watcherStart
  | logRenewed
  | logRenewError
  | watcherStop
deriving DecidableEq

/-- The Go `error` values `autoRenewal` can return (non-nil case). -/
inductive VErr
  | auth (e : AuthError)
  | persistHome
  | persistWrite
  | watcherCreate
  | renew (m : String)
deriving DecidableEq

/-- Result of `writeToken`: success, `homedir.Dir()` error, `WriteFile`
error, or the nil-pointer panic on `secret.Auth.ClientToken`. -/
inductive TokenWriteResult
  | ok
  | homeDirError
  | writeError
  | panicked
deriving DecidableEq

/-- One `ioutil.WriteFile` call: target path, content, permission mode. -/
structure WriteCall where
  path : String
  content : String
  mode : Nat
deriving DecidableEq

/-- Result and filesystem calls of one `writeToken` invocation. -/
structure WriteTokenOut where
  result : TokenWriteResult
  calls : List WriteCall
deriving DecidableEq

/-- `writeToken`: resolve the home directory, join it with the fixed name
`.vault-token`, and write `secret.Auth.ClientToken` with mode 0600.
`homeDir = none` models `homedir.Dir()` failing; `writeOk = false` models
`ioutil.WriteFile` failing. Evaluating `secret.Auth.ClientToken` when
`secret.Auth` is nil panics before any write call is issued. -/
def writeToken (homeDir : Option String) (writeOk : Bool) (s : Secret) :
    WriteTokenOut :=
  match homeDir with
  | none => { result := .homeDirError, calls := [] }
  | some home =>
    match s.auth with
    | none => { result := .panicked, calls := [] }
    | some a =>
      let call : WriteCall :=
        { path := home ++ "/.vault-token", content := a.clientToken, mode := 0o600 }
      if writeOk then { result := .ok, calls := [call] }
      else { result := .writeError, calls := [call] }

/-- Events of one `authenticate()` call: the jwt file read always happens
first; the remote request is issued unless the jwt read failed. -/
def authEvents : AuthOutcome → List Event
  | .failure .identityUnavailable => [.jwtRead false]
  | .failure _ => [.jwtRead true, .remoteCall]
  | .success _ => [.jwtRead true, .remoteCall]

/-- The `for { select ... } }` wait loop over the watcher's channels.
Returns `none` when the event list is exhausted without a terminal
observation (the Go loop would still be blocked), else `some err` where
`err` is the (possibly nil) error returned, together with the log events
emitted while waiting. -/
def watchLoop : List WatchEvent → Option (Option String) × List Event
  | [] => (none, [])
  | .ctxDone :: _ => (some none, [])
  | .doneCh none :: _ => (some none, [])
  | .doneCh (some m) :: _ => (some (some m), [.logRenewError])
  | .renewCh :: rest =>
    let p := watchLoop rest
    (p.1, .logRenewed :: p.2)

/-- Environment oracle for one `autoRenewal` cycle. `ctxDoneAfter` is
whether the `select` in `StartAutoRenew` after this cycle observes
`ctx.Done()` as ready (for the error branch, before the 30s timer fires). -/
structure CycleEnv where
  authOutcome : AuthOutcome
  homeDir : Option String
  writeOk : Bool
  newWatcherOk : Bool
  watchEvents : List WatchEvent
  ctxDoneAfter : Bool
deriving DecidableEq

/-- How one `autoRenewal` call ends: a Go `return` with a possibly-nil
error, a panic, or still blocked in the wait loop. -/
inductive CycleResult
  | returned (e : Option VErr)
  | panicked
  | blocked
deriving DecidableEq

/-- Result, ordered event list, and successfully-written token (if any) of
one `autoRenewal` cycle. -/
structure CycleOut where
  result : CycleResult
  events : List Event
  written : Option String
deriving DecidableEq

/-- One `autoRenewal` cycle: `authenticate`, then `writeToken` (logging and
returning on each failure), then `NewLifetimeWatcher` + `go watcher.Start()`,
then the channel wait loop; `defer watcher.Stop()` runs on every return
after the watcher was started. -/
def autoRenewal (env : CycleEnv) : CycleOut :=
  match env.authOutcome with
  | .failure e =>
    { result := .returned (some (.auth e)),
      events := authEvents (.failure e) ++ [.logAuthError],
      written := none }
  | .success s =>
    let pre := authEvents (.success s)
    match (writeToken env.homeDir env.writeOk s).result with
    | .homeDirError =>
      { result := .returned (some .persistHome),
        events := pre ++ [.logWriteError], written := none }
    | .panicked =>
      { result := .panicked, events := pre, written := none }
    | .writeError =>
      { result := .returned (some .persistWrite),
        events := pre ++ [.writeAttempt false, .logWriteError], written := none }
    | .ok =>
      let written := ((writeToken env.homeDir env.writeOk s).calls.head?).map
        WriteCall.content
      let pre2 := pre ++ [.writeAttempt true, .logTokenUpdated]
      if env.newWatcherOk then
        match watchLoop env.watchEvents with
        | (none, wevs) =>
          { result := .blocked,
            events := pre2 ++ [.watcherStart] ++ wevs, written := written }
        | (some e, wevs) =>
          { result := .returned (Option.map VErr.renew e),
            events := pre2 ++ [.watcherStart] ++ wevs ++ [.watcherStop],
            written := written }
      else
        { result := .returned (some .watcherCreate),
          events := pre2, written := written }

/-- The fixed backoff of `StartAutoRenew`: `time.After(30 * time.Second)`. -/
def backoffSeconds : Nat := 30

/-- One step in the supervisor's trace: a full `autoRenewal` cycle with its
events, or a completed backoff pause of the given number of seconds. -/
inductive SupStep
  | attempt (evs : List Event)
  | pause (seconds : Nat)
deriving DecidableEq

/-- How a supervisor run ends: loop exit via cancellation, the supplied
environment list exhausted (the Go loop would keep iterating), or stuck
(a cycle panicked or blocked forever). -/
inductive SupStatus
  | exited
  | outOfFuel
  | stuck
deriving DecidableEq

/-- Trace, final token-file content, and terminal status of a supervisor run. -/
structure SupRun where
  steps : List SupStep
  tokenFile : Option String
  status : SupStatus
deriving DecidableEq

/-- Apply one cycle's successful write (if any) to the token-file content. -/
def updateFile (w : Option String) (fs : Option String) : Option String :=
  match w with
  | some t => some t
  | none => fs

/-- `StartAutoRenew`: run `autoRenewal`; on a nil error, check `ctx.Done()`
non-blockingly and either exit or continue at once; on a non-nil error,
`select` between `ctx.Done()` (exit) and the 30-second timer (pause, then
continue). -/
def startAutoRenew : List CycleEnv → Option String → SupRun
  | [], fs => { steps := [], tokenFile := fs, status := .outOfFuel }
  | env :: rest, fs =>
    let out := autoRenewal env
    let fs' := updateFile out.written fs
    match out.result with
    | .returned none =>
      if env.ctxDoneAfter then
        { steps := [.attempt out.events], tokenFile := fs', status := .exited }
      else
        let r := startAutoRenew rest fs'
        { steps := .attempt out.events :: r.steps,
          tokenFile := r.tokenFile, status := r.status }
    | .returned (some _) =>
      if env.ctxDoneAfter then
        { steps := [.attempt out.events], tokenFile := fs', status := .exited }
      else
        let r := startAutoRenew rest fs'
        { steps := .attempt out.events :: .pause backoffSeconds :: r.steps,
          tokenFile := r.tokenFile, status := r.status }
    | .panicked =>
      { steps := [.attempt out.events], tokenFile := fs', status := .stuck }
    | .blocked =>
      { steps := [.attempt out.events], tokenFile := fs', status := .stuck }

/-- All cycle events of a run, in order. -/
def supEvents (r : SupRun) : List Event :=
  r.steps.foldr
    (fun st acc =>
      match st with
      | .attempt evs => evs ++ acc
      | .pause _ => acc)
    []

/-- Number of authentication cycles begun in a trace. -/
def numAttempts : List SupStep → Nat
  | [] => 0
  | .attempt _ :: l => numAttempts l + 1
  | .pause _ :: l => numAttempts l

/-- Token-file content after a list of cycles all of whose writes apply. -/
def lastToken (envs : List CycleEnv) (fs : Option String) : Option String :=
  envs.foldl (fun acc env => updateFile (autoRenewal env).written acc) fs

/-- The vault gate in `main`: the renewal subsystem is set up only when all
four flag values are non-empty. -/
def vaultGate (role server tokenPath authPath : String) : Bool :=
  role.length != 0 && server.length != 0 && tokenPath.length != 0 &&
    authPath.length != 0

/-- What `main` does about the vault subsystem: skipped entirely, process
exit at startup (`CreateVaultAuth` client construction failed), or the
supervisor run launched. -/
inductive MainVaultOutcome
  | notStarted
  | startupExit
  | started (r : SupRun)
deriving DecidableEq

/-- The vault portion of `main`: gate on all four flags being non-empty,
construct the client (`clientOk` models `api.NewClient` succeeding), and
launch `StartAutoRenew`. -/
def mainVault (role server tokenPath authPath : String) (clientOk : Bool)
    (envs : List CycleEnv) (fs : Option String) : MainVaultOutcome :=
  if vaultGate role server tokenPath authPath then
    if clientOk then .started (startAutoRenew envs fs) else .startupExit
  else .notStarted

/-- Cycle events produced by the vault portion of `main`. -/
def outcomeEvents : MainVaultOutcome → List Event
  | .started r => supEvents r
  | _ => []

/-- The three retryable failure kinds named by the spec. -/
inductive FailKind
  | authFail
  | persistFail
  | renewFail
deriving DecidableEq

/-- The log event the code emits for each retryable failure kind. -/
def failLog : FailKind → Event
  | .authFail => .logAuthError
  | .persistFail => .logWriteError
  | .renewFail => .logRenewError

/-- A cycle environment exhibiting the given retryable failure kind. -/
def failsWith (env : CycleEnv) : FailKind → Prop
  | .authFail => ∃ e, env.authOutcome = .failure e
  | .persistFail => ∃ s, env.authOutcome = .success s ∧
      (env.homeDir = none ∨ (∃ a, s.auth = some a ∧ env.writeOk = false))
  | .renewFail => ∃ s a h m, env.authOutcome = .success s ∧ s.auth = some a ∧
      env.homeDir = some h ∧ env.writeOk = true ∧ env.newWatcherOk = true ∧
      (watchLoop env.watchEvents).1 = some (some m)

/-- An environment in which the cancellation signal has fired before the
supervisor loop starts: every context observation reports done. The cycle's
own inputs are otherwise healthy. -/
def preCanceledEnvA : CycleEnv :=
  { authOutcome := .success { auth := some { clientToken := "tok-A" } },
    homeDir := some "/root", writeOk := true, newWatcherOk := true,
    watchEvents := [.ctxDone], ctxDoneAfter := true }

/-- A second pre-canceled healthy environment (cancellation fired before or
during the cycle's remote call; every context observation reports done). -/
def preCanceledEnvB : CycleEnv :=
  { authOutcome := .success { auth := some { clientToken := "tok-B" } },
    homeDir := some "/home/u", writeOk := true, newWatcherOk := true,
    watchEvents := [.ctxDone], ctxDoneAfter := true }

/-- A cycle whose authentication fails at the remote call. -/
def envRetry : CycleEnv :=
  { authOutcome := .failure .transport, homeDir := some "/root",
    writeOk := true, newWatcherOk := true, watchEvents := [],
    ctxDoneAfter := false }

/-- A healthy cycle whose watcher ends with a nil-error terminal
notification after one renewal. -/
def envGraceful : CycleEnv :=
  { authOutcome := .success { auth := some { clientToken := "tok-G" } },
    homeDir := some "/root", writeOk := true, newWatcherOk := true,
    watchEvents := [.renewCh, .doneCh none], ctxDoneAfter := false }

/-- A healthy cycle whose watcher ends with an error-carrying terminal
notification. -/
def envRenewFail : CycleEnv :=
  { authOutcome := .success { auth := some { clientToken := "tok-R" } },
    homeDir := some "/root", writeOk := true, newWatcherOk := true,
    watchEvents := [.doneCh (some "lease expired")], ctxDoneAfter := false }

/- Helper lemmas about the watch loop and a single cycle. -/

theorem watchLoop_mem_renew (ws : List WatchEvent) :
    ∀ e ∈ (watchLoop ws).2, e = Event.logRenewed ∨ e = Event.logRenewError := by
  induction ws with
  | nil => simp [watchLoop]
  | cons x rest ih =>
    cases x with
    | ctxDone => simp [watchLoop]
    | doneCh err => rcases err with _ | m <;> simp [watchLoop]
    | renewCh =>
      intro e he
      simp only [watchLoop, List.mem_cons] at he
      rcases he with h | h
      · exact Or.inl h
      · exact ih e h

theorem watchLoop_err_log (ws : List WatchEvent) (m : String)
    (h : (watchLoop ws).1 = some (some m)) :
    Event.logRenewError ∈ (watchLoop ws).2 := by
  induction ws with
  | nil => simp [watchLoop] at h
  | cons x rest ih =>
    cases x with
    | ctxDone => simp [watchLoop] at h
    | doneCh err =>
      rcases err with _ | m' <;> simp [watchLoop] at h ⊢
    | renewCh =>
      simp only [watchLoop, List.mem_cons] at h ⊢
      exact Or.inr (ih h)

theorem watchLoop_renews_terminal (rs : List WatchEvent) (d : Option String)
    (h : ∀ x ∈ rs, x = WatchEvent.renewCh) :
    (watchLoop (rs ++ [WatchEvent.doneCh d])).1 = some d := by
  induction rs with
  | nil => rcases d with _ | m <;> simp [watchLoop]
  | cons x rest ih =>
    have hx : x = WatchEvent.renewCh := h x (by simp)
    subst hx
    simp only [watchLoop, List.cons_append]
    exact ih (fun y hy => h y (by simp [hy]))

theorem failsWith_result (env : CycleEnv) (k : FailKind) (hk : failsWith env k) :
    ∃ e, (autoRenewal env).result = CycleResult.returned (some e) ∧
      failLog k ∈ (autoRenewal env).events := by
  cases k with
  | authFail =>
    obtain ⟨e, he⟩ := hk
    refine ⟨.auth e, ?_, ?_⟩ <;> simp [autoRenewal, he, failLog]
  | persistFail =>
    obtain ⟨s, hs, hcase⟩ := hk
    rcases hcase with hhd | ⟨a, ha, hw⟩
    · refine ⟨.persistHome, ?_, ?_⟩ <;>
        simp [autoRenewal, hs, hhd, writeToken, failLog]
    · rcases hhd : env.homeDir with _ | h
      · refine ⟨.persistHome, ?_, ?_⟩ <;>
          simp [autoRenewal, hs, hhd, writeToken, failLog]
      · refine ⟨.persistWrite, ?_, ?_⟩ <;>
          simp [autoRenewal, hs, hhd, ha, hw, writeToken, failLog]
  | renewFail =>
    obtain ⟨s, a, h, m, hs, ha, hh, hw, hnw, hwl⟩ := hk
    rcases hp : watchLoop env.watchEvents with ⟨r, wevs⟩
    rw [hp] at hwl
    simp only at hwl
    subst hwl
    have hmem : Event.logRenewError ∈ wevs := by
      have := watchLoop_err_log env.watchEvents m (by rw [hp])
      rwa [hp] at this
    refine ⟨.renew m, ?_, ?_⟩ <;>
      simp [autoRenewal, hs, ha, hh, hw, hnw, hp, writeToken, failLog, hmem]

theorem startAutoRenew_head (env : CycleEnv) (rest : List CycleEnv)
    (fs : Option String) :
    ∃ tail, (startAutoRenew (env :: rest) fs).steps
      = SupStep.attempt (autoRenewal env).events :: tail := by
  rcases hres : (autoRenewal env).result with e | _ | _
  · rcases e with _ | e <;> by_cases hc : env.ctxDoneAfter <;>
      simp [startAutoRenew, hres, hc]
  · simp [startAutoRenew, hres]
  · simp [startAutoRenew, hres]

theorem sup_cons_ok (env : CycleEnv) (rest : List CycleEnv) (fs : Option String)
    (hres : (autoRenewal env).result = CycleResult.returned none)
    (hc : env.ctxDoneAfter = false) :
    startAutoRenew (env :: rest) fs
      = { steps := SupStep.attempt (autoRenewal env).events ::
            (startAutoRenew rest (updateFile (autoRenewal env).written fs)).steps,
          tokenFile :=
            (startAutoRenew rest (updateFile (autoRenewal env).written fs)).tokenFile,
          status :=
            (startAutoRenew rest (updateFile (autoRenewal env).written fs)).status } := by
  simp [startAutoRenew, hres, hc]

theorem sup_cons_err (env : CycleEnv) (rest : List CycleEnv) (fs : Option String)
    (e : VErr)
    (hres : (autoRenewal env).result = CycleResult.returned (some e))
    (hc : env.ctxDoneAfter = false) :
    startAutoRenew (env :: rest) fs
      = { steps := SupStep.attempt (autoRenewal env).events ::
            SupStep.pause backoffSeconds ::
            (startAutoRenew rest (updateFile (autoRenewal env).written fs)).steps,
          tokenFile :=
            (startAutoRenew rest (updateFile (autoRenewal env).written fs)).tokenFile,
          status :=
            (startAutoRenew rest (updateFile (autoRenewal env).written fs)).status } := by
  simp [startAutoRenew, hres, hc]

theorem sup_cons_exit (env : CycleEnv) (rest : List CycleEnv) (fs : Option String)
    (e : Option VErr)
    (hres : (autoRenewal env).result = CycleResult.returned e)
    (hc : env.ctxDoneAfter = true) :
    startAutoRenew (env :: rest) fs
      = { steps := [SupStep.attempt (autoRenewal env).events],
          tokenFile := updateFile (autoRenewal env).written fs,
          status := .exited } := by
  rcases e with _ | e <;> simp [startAutoRenew, hres, hc]

theorem sup_cons_stuck (env : CycleEnv) (rest : List CycleEnv) (fs : Option String)
    (hres : (autoRenewal env).result = CycleResult.panicked ∨
      (autoRenewal env).result = CycleResult.blocked) :
    startAutoRenew (env :: rest) fs
      = { steps := [SupStep.attempt (autoRenewal env).events],
          tokenFile := updateFile (autoRenewal env).written fs,
          status := .stuck } := by
  rcases hres with h | h <;> simp [startAutoRenew, h]

/-- C1: every supervised cycle ending in a retryable failure (authentication
failure, persistence failure, or watcher terminal-notification-with-error)
is followed by exactly one 30-second backoff pause before the next
authentication attempt begins — never zero pauses and never two attempts
without the pause between them — and the failure is logged locally by the
cycle itself; `startAutoRenew` surfaces no error to any caller (its result
carries only the trace, token file and exit status). -/
theorem vault_C1_retryable_backoff (env : CycleEnv) (k : FailKind)
    (env₂ : CycleEnv) (rest : List CycleEnv) (fs : Option String)
    (hk : failsWith env k) (hctx : env.ctxDoneAfter = false) :
    ∃ evs evs₂ tail,
      (startAutoRenew (env :: env₂ :: rest) fs).steps
        = SupStep.attempt evs :: SupStep.pause 30 ::
            SupStep.attempt evs₂ :: tail ∧
      failLog k ∈ evs := by
  obtain ⟨e, hres, hlog⟩ := failsWith_result env k hk
  obtain ⟨tail, htail⟩ :=
    startAutoRenew_head env₂ rest (updateFile (autoRenewal env).written fs)
  refine ⟨(autoRenewal env).events, (autoRenewal env₂).events, tail, ?_, hlog⟩
  rw [sup_cons_err env (env₂ :: rest) fs e hres hctx]
  simp only [htail]
  rfl

/-- C1 witness: a concrete transport-failure cycle followed by a healthy
cycle shows the attempt-pause-attempt shape with the logged failure. -/
theorem vault_C1_retryable_backoff_witness :
    ∃ evs evs₂ tail,
      (startAutoRenew [envRetry, envGraceful] none).steps
        = SupStep.attempt evs :: SupStep.pause 30 ::
            SupStep.attempt evs₂ :: tail ∧
      failLog .authFail ∈ evs :=
  vault_C1_retryable_backoff envRetry .authFail envGraceful [] none
    ⟨.transport, rfl⟩ rfl

/-- C2: a cycle whose watcher terminal notification carries no error makes
the supervisor begin the next authentication attempt immediately, with no
backoff pause; a terminal notification carrying an error inserts the
30-second pause. More generally the nil-error outcome of a cycle, and only
that outcome, skips the pause before the next attempt. -/
theorem vault_C2_graceful_restart (env env₂ : CycleEnv) (rest : List CycleEnv)
    (fs : Option String) (hctx : env.ctxDoneAfter = false) :
    (∀ s a h rs, env.authOutcome = .success s → s.auth = some a →
      env.homeDir = some h → env.writeOk = true → env.newWatcherOk = true →
      (∀ x ∈ rs, x = WatchEvent.renewCh) →
      ((env.watchEvents = rs ++ [WatchEvent.doneCh none] →
        ∃ evs evs₂ tail,
          (startAutoRenew (env :: env₂ :: rest) fs).steps
            = SupStep.attempt evs :: SupStep.attempt evs₂ :: tail) ∧
       (∀ m, env.watchEvents = rs ++ [WatchEvent.doneCh (some m)] →
        ∃ evs evs₂ tail,
          (startAutoRenew (env :: env₂ :: rest) fs).steps
            = SupStep.attempt evs :: SupStep.pause 30 ::
                SupStep.attempt evs₂ :: tail))) ∧
    ((autoRenewal env).result = CycleResult.returned none →
      ∃ evs evs₂ tail,
        (startAutoRenew (env :: env₂ :: rest) fs).steps
          = SupStep.attempt evs :: SupStep.attempt evs₂ :: tail) ∧
    (∀ e, (autoRenewal env).result = CycleResult.returned (some e) →
      ∃ evs evs₂ tail,
        (startAutoRenew (env :: env₂ :: rest) fs).steps
          = SupStep.attempt evs :: SupStep.pause 30 ::
              SupStep.attempt evs₂ :: tail) := by
  obtain ⟨tail, htail⟩ :=
    startAutoRenew_head env₂ rest (updateFile (autoRenewal env).written fs)
  have hb : (autoRenewal env).result = CycleResult.returned none →
      ∃ evs evs₂ tail,
        (startAutoRenew (env :: env₂ :: rest) fs).steps
          = SupStep.attempt evs :: SupStep.attempt evs₂ :: tail := by
    intro hres
    refine ⟨(autoRenewal env).events, (autoRenewal env₂).events, tail, ?_⟩
    rw [sup_cons_ok env (env₂ :: rest) fs hres hctx]
    simp only [htail]
  have hcerr : ∀ e, (autoRenewal env).result = CycleResult.returned (some e) →
      ∃ evs evs₂ tail,
        (startAutoRenew (env :: env₂ :: rest) fs).steps
          = SupStep.attempt evs :: SupStep.pause 30 ::
              SupStep.attempt evs₂ :: tail := by
    intro e hres
    refine ⟨(autoRenewal env).events, (autoRenewal env₂).events, tail, ?_⟩
    rw [sup_cons_err env (env₂ :: rest) fs e hres hctx]
    simp only [htail]
    rfl
  refine ⟨?_, hb, hcerr⟩
  intro s a h rs hs ha hh hw hnw hrs
  have hres_of : ∀ d, env.watchEvents = rs ++ [WatchEvent.doneCh d] →
      (autoRenewal env).result
        = CycleResult.returned (Option.map VErr.renew d) := by
    intro d hwe
    have hwl : (watchLoop env.watchEvents).1 = some d := by
      rw [hwe]; exact watchLoop_renews_terminal rs d hrs
    rcases hp : watchLoop env.watchEvents with ⟨r, wl⟩
    rw [hp] at hwl
    simp only at hwl
    subst hwl
    simp [autoRenewal, hs, ha, hh, hw, hnw, writeToken, hp]
  constructor
  · intro hwe
    exact hb (hres_of none hwe)
  · intro m hwe
    exact hcerr (VErr.renew m) (hres_of (some m) hwe)

/-- C2 witness: concrete graceful and error-terminal cycles show the two
shapes (no pause after a nil-error terminal, pause after an error one). -/
theorem vault_C2_graceful_restart_witness :
    (∃ evs evs₂ tail,
      (startAutoRenew [envGraceful, envRetry] none).steps
        = SupStep.attempt evs :: SupStep.attempt evs₂ :: tail) ∧
    (∃ evs evs₂ tail,
      (startAutoRenew [envRenewFail, envRetry] none).steps
        = SupStep.attempt evs :: SupStep.pause 30 ::
            SupStep.attempt evs₂ :: tail) := by
  constructor
  · exact ((vault_C2_graceful_restart envGraceful envRetry [] none rfl).1
      { auth := some { clientToken := "tok-G" } } { clientToken := "tok-G" }
      "/root" [WatchEvent.renewCh] rfl rfl rfl rfl rfl
      (by intro x hx; simpa using hx)).1 rfl
  · exact ((vault_C2_graceful_restart envRenewFail envRetry [] none rfl).1
      { auth := some { clientToken := "tok-R" } } { clientToken := "tok-R" }
      "/root" [] rfl rfl rfl rfl rfl (by intro x hx; simp at hx)).2
      "lease expired" rfl

theorem sup_tokenFile (envs : List CycleEnv) (fs : Option String) :
    (startAutoRenew envs fs).tokenFile
      = lastToken (envs.take (numAttempts (startAutoRenew envs fs).steps)) fs := by
  induction envs generalizing fs with
  | nil => simp [startAutoRenew, lastToken, numAttempts]
  | cons env rest ih =>
    rcases hres : (autoRenewal env).result with e | _ | _
    · rcases e with _ | e
      · by_cases hc : env.ctxDoneAfter
        · rw [sup_cons_exit env rest fs none hres hc]
          simp [numAttempts, lastToken]
        · rw [sup_cons_ok env rest fs hres (by simpa using hc)]
          simp only [numAttempts, lastToken, List.take_succ_cons, List.foldl_cons]
          exact ih (updateFile (autoRenewal env).written fs)
      · by_cases hc : env.ctxDoneAfter
        · rw [sup_cons_exit env rest fs (some e) hres hc]
          simp [numAttempts, lastToken]
        · rw [sup_cons_err env rest fs e hres (by simpa using hc)]
          simp only [numAttempts, lastToken, List.take_succ_cons, List.foldl_cons]
          exact ih (updateFile (autoRenewal env).written fs)
    · rw [sup_cons_stuck env rest fs (Or.inl hres)]
      simp [numAttempts, lastToken]
    · rw [sup_cons_stuck env rest fs (Or.inr hres)]
      simp [numAttempts, lastToken]

theorem written_spec (env : CycleEnv) (t : String)
    (hw : (autoRenewal env).written = some t) :
    ∃ s a, env.authOutcome = .success s ∧ s.auth = some a ∧
      a.clientToken = t ∧ env.writeOk = true ∧ ∃ h, env.homeDir = some h := by
  obtain ⟨ao, hd, wOk, nwOk, wevs, ctxA⟩ := env
  cases ao with
  | failure e => simp [autoRenewal] at hw
  | success s =>
    rcases hd with _ | h
    · simp [autoRenewal, writeToken] at hw
    · obtain ⟨sa⟩ := s
      rcases sa with _ | a
      · simp [autoRenewal, writeToken] at hw
      · cases wOk with
        | false => simp [autoRenewal, writeToken] at hw
        | true =>
          cases nwOk with
          | false =>
            simp [autoRenewal, writeToken] at hw
            exact ⟨{ auth := some a }, a, rfl, rfl, hw, rfl, h, rfl⟩
          | true =>
            rcases hp : watchLoop wevs with ⟨r, wl⟩
            rcases r with _ | e <;>
              simp [autoRenewal, writeToken, hp] at hw <;>
              exact ⟨{ auth := some a }, a, rfl, rfl, hw, rfl, h, rfl⟩

theorem authFail_untouched (env : CycleEnv) (e : AuthError)
    (he : env.authOutcome = .failure e) :
    (autoRenewal env).written = none ∧
      ∀ b, Event.writeAttempt b ∉ (autoRenewal env).events := by
  cases e <;> simp [autoRenewal, he, authEvents]

/-- C3: the persisted token file is written only as the immediate successor
of a successful authentication: the supervisor's final token-file content
is the fold of the per-cycle successful writes over the executed prefix of
cycles; a cycle writes `some t` only when its authentication succeeded with
client token `t` and the persistence step succeeded; and a cycle whose
authentication fails leaves the file untouched and performs no write call. -/
theorem vault_C3_token_most_recent (envs : List CycleEnv) (fs : Option String) :
    ((startAutoRenew envs fs).tokenFile
      = lastToken (envs.take (numAttempts (startAutoRenew envs fs).steps)) fs) ∧
    (∀ env t, (autoRenewal env).written = some t →
      ∃ s a, env.authOutcome = .success s ∧ s.auth = some a ∧
        a.clientToken = t ∧ env.writeOk = true ∧ ∃ h, env.homeDir = some h) ∧
    (∀ env e, env.authOutcome = .failure e →
      (autoRenewal env).written = none ∧
        ∀ b, Event.writeAttempt b ∉ (autoRenewal env).events) :=
  ⟨sup_tokenFile envs fs, written_spec, authFail_untouched⟩

/-- C3 witness: the graceful concrete cycle writes exactly its authenticated
client token. -/
theorem vault_C3_token_most_recent_witness :
    ∃ s a, envGraceful.authOutcome = .success s ∧ s.auth = some a ∧
      a.clientToken = "tok-G" ∧ envGraceful.writeOk = true ∧
      ∃ h, envGraceful.homeDir = some h :=
  (vault_C3_token_most_recent [] none).2.1 envGraceful "tok-G" rfl

theorem autoRenewal_events_prefix (env : CycleEnv) :
    ∃ t, (autoRenewal env).events = authEvents env.authOutcome ++ t := by
  obtain ⟨ao, hd, wOk, nwOk, wevs, ctxA⟩ := env
  cases ao with
  | failure e => exact ⟨[.logAuthError], rfl⟩
  | success s =>
    rcases hd with _ | h
    · exact ⟨[.logWriteError], by simp [autoRenewal, writeToken]⟩
    · obtain ⟨sa⟩ := s
      rcases sa with _ | a
      · exact ⟨[], by simp [autoRenewal, writeToken]⟩
      · cases wOk with
        | false =>
          exact ⟨[.writeAttempt false, .logWriteError],
            by simp [autoRenewal, writeToken]⟩
        | true =>
          cases nwOk with
          | false =>
            exact ⟨[.writeAttempt true, .logTokenUpdated],
              by simp [autoRenewal, writeToken]⟩
          | true =>
            rcases hp : watchLoop wevs with ⟨r, wl⟩
            rcases r with _ | e
            · exact ⟨[.writeAttempt true, .logTokenUpdated, .watcherStart] ++ wl,
                by simp [autoRenewal, writeToken, hp]⟩
            · exact ⟨[.writeAttempt true, .logTokenUpdated, .watcherStart] ++ wl
                  ++ [.watcherStop],
                by simp [autoRenewal, writeToken, hp]⟩

theorem remoteCall_mem (env : CycleEnv)
    (hne : env.authOutcome ≠ .failure .identityUnavailable) :
    Event.remoteCall ∈ (autoRenewal env).events := by
  obtain ⟨t, ht⟩ := autoRenewal_events_prefix env
  rw [ht]
  rcases hao : env.authOutcome with e | s
  · cases e with
    | identityUnavailable => exact absurd hao hne
    | transport => simp [authEvents]
    | remoteRejected => simp [authEvents]
    | malformedResponse => simp [authEvents]
  · simp [authEvents]

/-- C4 counterexample: in an environment where the cancellation signal has
fired before the supervisor loop starts (every context observation reports
done, the very first one included), the run still performs one remote
authentication call and one token-file write — not zero — because the loop
body calls `autoRenewal` (hence `authenticate`, which never consults the
context) before any cancellation check. -/
theorem vault_C4_counterexample :
    Event.remoteCall ∈ supEvents (startAutoRenew [preCanceledEnvA] none) ∧
    Event.writeAttempt true ∈ supEvents (startAutoRenew [preCanceledEnvA] none) ∧
    numAttempts (startAutoRenew [preCanceledEnvA] none).steps = 1 ∧
    (startAutoRenew [preCanceledEnvA] none).status = SupStatus.exited := by
  decide

/-- C4 amended: if the cancellation signal is already fired when the loop
starts, the supervisor still executes exactly one full cycle — including
the cycle's remote authentication call whenever the identity-assertion
read succeeds — and then exits at its first cancellation check, performing
no second attempt. -/
theorem vault_C4_one_cycle_then_exit (env : CycleEnv) (rest : List CycleEnv)
    (fs : Option String) (e : Option VErr)
    (hctx : env.ctxDoneAfter = true)
    (hres : (autoRenewal env).result = CycleResult.returned e) :
    (startAutoRenew (env :: rest) fs).steps
      = [SupStep.attempt (autoRenewal env).events] ∧
    (startAutoRenew (env :: rest) fs).status = SupStatus.exited ∧
    (env.authOutcome ≠ .failure .identityUnavailable →
      Event.remoteCall ∈ (autoRenewal env).events) := by
  rw [sup_cons_exit env rest fs e hres hctx]
  exact ⟨rfl, rfl, remoteCall_mem env⟩

/-- C4 witness: the amended behavior at the concrete pre-canceled
environment. -/
theorem vault_C4_one_cycle_then_exit_witness :
    (startAutoRenew [preCanceledEnvA] none).steps
      = [SupStep.attempt (autoRenewal preCanceledEnvA).events] ∧
    (startAutoRenew [preCanceledEnvA] none).status = SupStatus.exited ∧
    (preCanceledEnvA.authOutcome ≠ .failure .identityUnavailable →
      Event.remoteCall ∈ (autoRenewal preCanceledEnvA).events) :=
  vault_C4_one_cycle_then_exit preCanceledEnvA [] none none rfl rfl

/-- C5 counterexample: with the cancellation signal fired before or during
the cycle's remote authentication call (every context observation reports
done from the start), the persistence write still happens: cancellation did
not preempt the remote call or the write, contradicting the claim that all
four suspension points are preempted with no further token-file writes. -/
theorem vault_C5_counterexample :
    Event.writeAttempt true ∈ supEvents (startAutoRenew [preCanceledEnvB] none) ∧
    (startAutoRenew [preCanceledEnvB] none).tokenFile = some "tok-B" ∧
    (startAutoRenew [preCanceledEnvB] none).status = SupStatus.exited := by
  decide

/-- C5 amended: cancellation is observed only at the two `select` points —
the lease-watch wait and the backoff timer. Cancellation is the only
terminal exit of the loop; a cancellation observed at the watch wait ends
the run at once with only the deferred watcher stop after it, and a
cancellation pending when a failed cycle returns skips the 30-second pause
and exits; but the remote call and the persistence write of the current
cycle are not interrupted (the write still occurs, see the counterexample). -/
theorem vault_C5_cancellation_points (envs : List CycleEnv) (env : CycleEnv)
    (rest : List CycleEnv) (fs : Option String) :
    ((startAutoRenew envs fs).status = SupStatus.exited →
      ∃ e ∈ envs, e.ctxDoneAfter = true) ∧
    (∀ s a h t, env.authOutcome = .success s → s.auth = some a →
      env.homeDir = some h → env.writeOk = true → env.newWatcherOk = true →
      env.watchEvents = WatchEvent.ctxDone :: t → env.ctxDoneAfter = true →
      startAutoRenew (env :: rest) fs
        = { steps := [SupStep.attempt [Event.jwtRead true, Event.remoteCall,
              Event.writeAttempt true, Event.logTokenUpdated,
              Event.watcherStart, Event.watcherStop]],
            tokenFile := some a.clientToken, status := .exited }) ∧
    (∀ e, (autoRenewal env).result = CycleResult.returned (some e) →
      env.ctxDoneAfter = true →
      (startAutoRenew (env :: rest) fs).steps
        = [SupStep.attempt (autoRenewal env).events] ∧
      (∀ st ∈ (startAutoRenew (env :: rest) fs).steps,
        st ≠ SupStep.pause backoffSeconds) ∧
      (startAutoRenew (env :: rest) fs).status = SupStatus.exited) := by
  refine ⟨?_, ?_, ?_⟩
  · induction envs generalizing fs with
    | nil => intro h; simp [startAutoRenew] at h
    | cons env0 rest0 ih =>
      intro h
      rcases hres : (autoRenewal env0).result with e | _ | _
      · by_cases hc : env0.ctxDoneAfter
        · exact ⟨env0, by simp, hc⟩
        · rcases e with _ | e
          · rw [sup_cons_ok env0 rest0 fs hres (by simpa using hc)] at h
            simp only at h
            obtain ⟨e', he', hce⟩ := ih _ h
            exact ⟨e', by simp [he'], hce⟩
          · rw [sup_cons_err env0 rest0 fs e hres (by simpa using hc)] at h
            simp only at h
            obtain ⟨e', he', hce⟩ := ih _ h
            exact ⟨e', by simp [he'], hce⟩
      · rw [sup_cons_stuck env0 rest0 fs (Or.inl hres)] at h
        simp at h
      · rw [sup_cons_stuck env0 rest0 fs (Or.inr hres)] at h
        simp at h
  · intro s a h t hs ha hh hw hnw hwe hctx
    have hout : autoRenewal env
        = { result := .returned none,
            events := [Event.jwtRead true, Event.remoteCall,
              Event.writeAttempt true, Event.logTokenUpdated,
              Event.watcherStart, Event.watcherStop],
            written := some a.clientToken } := by
      simp [autoRenewal, hs, ha, hh, hw, hnw, writeToken, hwe, watchLoop,
        authEvents]
    rw [sup_cons_exit env rest fs none (by rw [hout]) hctx, hout]
    rfl
  · intro e hres hctx
    rw [sup_cons_exit env rest fs (some e) hres hctx]
    refine ⟨rfl, ?_, rfl⟩
    intro st hst
    simp only [List.mem_singleton] at hst
    subst hst
    simp

theorem vault_C5_cancellation_points_witness :
    startAutoRenew [preCanceledEnvB] none
      = { steps := [SupStep.attempt [Event.jwtRead true, Event.remoteCall,
            Event.writeAttempt true, Event.logTokenUpdated,
            Event.watcherStart, Event.watcherStop]],
          tokenFile := some "tok-B", status := .exited } :=
  (vault_C5_cancellation_points [] preCanceledEnvB [] none).2.1
    { auth := some { clientToken := "tok-B" } } { clientToken := "tok-B" }
    "/home/u" [] rfl rfl rfl rfl rfl rfl rfl

theorem autoRenewal_closed (env : CycleEnv) (e : Option VErr)
    (hres : (autoRenewal env).result = CycleResult.returned e)
    (hst : Event.watcherStart ∈ (autoRenewal env).events) :
    Event.watcherStop ∈ (autoRenewal env).events := by
  obtain ⟨ao, hd, wOk, nwOk, wevs, ctxA⟩ := env
  cases ao with
  | failure e' => cases e' <;> simp [autoRenewal, authEvents] at hst
  | success s =>
    rcases hd with _ | h
    · simp [autoRenewal, writeToken, authEvents] at hst
    · obtain ⟨sa⟩ := s
      rcases sa with _ | a
      · simp [autoRenewal, writeToken] at hres
      · cases wOk with
        | false => simp [autoRenewal, writeToken, authEvents] at hst
        | true =>
          cases nwOk with
          | false => simp [autoRenewal, writeToken, authEvents] at hst
          | true =>
            rcases hp : watchLoop wevs with ⟨r, wl⟩
            rcases r with _ | e'
            · simp [autoRenewal, writeToken, hp] at hres
            · simp [autoRenewal, writeToken, hp, authEvents]

theorem sup_watcher_nonoverlap (envs : List CycleEnv) (fs : Option String) :
    ∀ (i j : Nat) evs₁ evs₂,
      (startAutoRenew envs fs).steps[i]? = some (SupStep.attempt evs₁) →
      (startAutoRenew envs fs).steps[j]? = some (SupStep.attempt evs₂) →
      i < j → Event.watcherStart ∈ evs₁ → Event.watcherStop ∈ evs₁ := by
  induction envs generalizing fs with
  | nil =>
    intro i j evs₁ evs₂ h1
    simp [startAutoRenew] at h1
  | cons env rest ih =>
    intro i j evs₁ evs₂ h1 h2 hij hstart
    rcases hres : (autoRenewal env).result with e | _ | _
    · by_cases hc : env.ctxDoneAfter
      · rcases Nat.exists_eq_add_of_lt hij with ⟨d, rfl⟩
        rw [sup_cons_exit env rest fs e hres hc] at h2
        rcases i with _ | i' <;> simp at h2
      · rcases e with _ | e
        · rw [sup_cons_ok env rest fs hres (by simpa using hc)] at h1 h2
          simp only at h1 h2
          cases i with
          | zero =>
            simp only [List.getElem?_cons_zero, Option.some.injEq] at h1
            obtain rfl : (autoRenewal env).events = evs₁ :=
              SupStep.attempt.inj h1
            exact autoRenewal_closed env none hres hstart
          | succ i' =>
            cases j with
            | zero => omega
            | succ j' =>
              simp only [List.getElem?_cons_succ] at h1 h2
              exact ih _ i' j' evs₁ evs₂ h1 h2 (by omega) hstart
        · rw [sup_cons_err env rest fs e hres (by simpa using hc)] at h1 h2
          simp only at h1 h2
          cases i with
          | zero =>
            simp only [List.getElem?_cons_zero, Option.some.injEq] at h1
            obtain rfl : (autoRenewal env).events = evs₁ :=
              SupStep.attempt.inj h1
            exact autoRenewal_closed env (some e) hres hstart
          | succ i' =>
            cases i' with
            | zero => simp at h1
            | succ i'' =>
              cases j with
              | zero => omega
              | succ j' =>
                cases j' with
                | zero => omega
                | succ j'' =>
                  simp only [List.getElem?_cons_succ] at h1 h2
                  exact ih _ i'' j'' evs₁ evs₂ h1 h2 (by omega) hstart
    · rcases Nat.exists_eq_add_of_lt hij with ⟨d, rfl⟩
      rw [sup_cons_stuck env rest fs (Or.inl hres)] at h2
      rcases i with _ | i' <;> simp at h2
    · rcases Nat.exists_eq_add_of_lt hij with ⟨d, rfl⟩
      rw [sup_cons_stuck env rest fs (Or.inr hres)] at h2
      rcases i with _ | i' <;> simp at h2

/-- C6: within each cycle authentication strictly precedes the persistence
write, the write strictly precedes starting the lease watcher, and each
earlier failure prevents every later step: an authentication failure rules
out any write attempt and any watcher start; any write attempt decomposes
the event list with the remote call before it and no watcher started
before it; a watcher start decomposes the event list with the successful
write and the remote call before it and no write or remote call after it.
Across cycles, any attempt that precedes a later attempt in the
supervisor's trace has its watcher stopped within its own events, so a new
authentication never begins while a previous watcher is active. -/
theorem vault_C6_step_ordering (env : CycleEnv) :
    (∀ e, env.authOutcome = .failure e →
      (∀ b, Event.writeAttempt b ∉ (autoRenewal env).events) ∧
      Event.watcherStart ∉ (autoRenewal env).events) ∧
    (∀ b, Event.writeAttempt b ∈ (autoRenewal env).events →
      ∃ pre post, (autoRenewal env).events
          = pre ++ Event.writeAttempt b :: post ∧
        Event.remoteCall ∈ pre ∧ Event.watcherStart ∉ pre ∧
        ∃ s, env.authOutcome = .success s) ∧
    (Event.watcherStart ∈ (autoRenewal env).events →
      ∃ pre post, (autoRenewal env).events
          = pre ++ Event.watcherStart :: post ∧
        Event.writeAttempt true ∈ pre ∧ Event.remoteCall ∈ pre ∧
        (∀ b, Event.writeAttempt b ∉ post) ∧ Event.remoteCall ∉ post) ∧
    (∀ envs fs (i j : Nat) evs₁ evs₂,
      (startAutoRenew envs fs).steps[i]? = some (SupStep.attempt evs₁) →
      (startAutoRenew envs fs).steps[j]? = some (SupStep.attempt evs₂) →
      i < j → Event.watcherStart ∈ evs₁ → Event.watcherStop ∈ evs₁) := by
  refine ⟨?_, ?_, ?_, fun envs fs => sup_watcher_nonoverlap envs fs⟩
  · intro e he
    cases e <;> simp [autoRenewal, he, authEvents]
  · intro b hmem
    obtain ⟨ao, hd, wOk, nwOk, wevs, ctxA⟩ := env
    cases ao with
    | failure e => cases e <;> simp [autoRenewal, authEvents] at hmem
    | success s =>
      rcases hd with _ | h
      · simp [autoRenewal, writeToken, authEvents] at hmem
      · obtain ⟨sa⟩ := s
        rcases sa with _ | a
        · simp [autoRenewal, writeToken, authEvents] at hmem
        · cases wOk with
          | false =>
            have hb : b = false := by
              simpa [autoRenewal, writeToken, authEvents] using hmem
            subst hb
            refine ⟨[.jwtRead true, .remoteCall], [.logWriteError], ?_,
              by simp, by simp, ⟨_, rfl⟩⟩
            simp [autoRenewal, writeToken, authEvents]
          | true =>
            cases nwOk with
            | false =>
              have hb : b = true := by
                simpa [autoRenewal, writeToken, authEvents] using hmem
              subst hb
              refine ⟨[.jwtRead true, .remoteCall], [.logTokenUpdated], ?_,
                by simp, by simp, ⟨_, rfl⟩⟩
              simp [autoRenewal, writeToken, authEvents]
            | true =>
              rcases hp : watchLoop wevs with ⟨r, wl⟩
              have hwl : ∀ x ∈ wl,
                  x = Event.logRenewed ∨ x = Event.logRenewError := by
                have h0 := watchLoop_mem_renew wevs
                rw [hp] at h0
                exact h0
              have hnot : ∀ b0, Event.writeAttempt b0 ∉ wl := by
                intro b0 hx
                rcases hwl _ hx with h1 | h1 <;> exact Event.noConfusion h1
              rcases r with _ | e
              · have hb : b = true := by
                  simp [autoRenewal, writeToken, authEvents, hp] at hmem
                  rcases hmem with h1 | h1
                  · exact h1
                  · exact absurd h1 (hnot b)
                subst hb
                refine ⟨[.jwtRead true, .remoteCall],
                  [.logTokenUpdated, .watcherStart] ++ wl, ?_,
                  by simp, by simp, ⟨_, rfl⟩⟩
                simp [autoRenewal, writeToken, authEvents, hp]
              · have hb : b = true := by
                  simp [autoRenewal, writeToken, authEvents, hp] at hmem
                  rcases hmem with h1 | h1
                  · exact h1
                  · exact absurd h1 (hnot b)
                subst hb
                refine ⟨[.jwtRead true, .remoteCall],
                  [.logTokenUpdated, .watcherStart] ++ wl ++ [.watcherStop], ?_,
                  by simp, by simp, ⟨_, rfl⟩⟩
                simp [autoRenewal, writeToken, authEvents, hp]
  · intro hmem
    obtain ⟨ao, hd, wOk, nwOk, wevs, ctxA⟩ := env
    cases ao with
    | failure e => cases e <;> simp [autoRenewal, authEvents] at hmem
    | success s =>
      rcases hd with _ | h
      · simp [autoRenewal, writeToken, authEvents] at hmem
      · obtain ⟨sa⟩ := s
        rcases sa with _ | a
        · simp [autoRenewal, writeToken, authEvents] at hmem
        · cases wOk with
          | false => simp [autoRenewal, writeToken, authEvents] at hmem
          | true =>
            cases nwOk with
            | false => simp [autoRenewal, writeToken, authEvents] at hmem
            | true =>
              rcases hp : watchLoop wevs with ⟨r, wl⟩
              have hwl : ∀ x ∈ wl,
                  x = Event.logRenewed ∨ x = Event.logRenewError := by
                have h0 := watchLoop_mem_renew wevs
                rw [hp] at h0
                exact h0
              have hnotw : ∀ b0, Event.writeAttempt b0 ∉ wl := by
                intro b0 hx
                rcases hwl _ hx with h1 | h1 <;> exact Event.noConfusion h1
              have hnotr : Event.remoteCall ∉ wl := by
                intro hx
                rcases hwl _ hx with h1 | h1 <;> exact Event.noConfusion h1
              rcases r with _ | e
              · refine ⟨[.jwtRead true, .remoteCall, .writeAttempt true,
                  .logTokenUpdated], wl, ?_, by simp, by simp, ?_, hnotr⟩
                · simp [autoRenewal, writeToken, authEvents, hp]
                · exact hnotw
              · refine ⟨[.jwtRead true, .remoteCall, .writeAttempt true,
                  .logTokenUpdated], wl ++ [.watcherStop], ?_, by simp,
                  by simp, ?_, ?_⟩
                · simp [autoRenewal, writeToken, authEvents, hp]
                · intro b0 hx
                  simp only [List.mem_append, List.mem_singleton] at hx
                  rcases hx with hx | hx
                  · exact hnotw b0 hx
                  · exact Event.noConfusion hx
                · intro hx
                  simp only [List.mem_append, List.mem_singleton] at hx
                  rcases hx with hx | hx
                  · exact hnotr hx
                  · exact Event.noConfusion hx

/-- C6 witness: the watcher-start decomposition at the concrete graceful
cycle. -/
theorem vault_C6_step_ordering_witness :
    ∃ pre post, (autoRenewal envGraceful).events
        = pre ++ Event.watcherStart :: post ∧
      Event.writeAttempt true ∈ pre ∧ Event.remoteCall ∈ pre ∧
      (∀ b, Event.writeAttempt b ∉ post) ∧ Event.remoteCall ∉ post :=
  (vault_C6_step_ordering envGraceful).2.2.1 (by decide)

/-- C7: whenever a cycle's wait loop returns (cancellation, terminal
notification with or without error — any return path), a watcher that was
started has its stop as the last event of the cycle, after the start; and
no cycle ever starts more than one watcher, so at most one lease watcher
is active at any time for the supervised identity. -/
theorem vault_C7_watcher_stopped (env : CycleEnv) :
    (∀ e, (autoRenewal env).result = CycleResult.returned e →
      Event.watcherStart ∈ (autoRenewal env).events →
      ∃ pre, (autoRenewal env).events = pre ++ [Event.watcherStop] ∧
        Event.watcherStart ∈ pre) ∧
    (autoRenewal env).events.count Event.watcherStart ≤ 1 := by
  obtain ⟨ao, hd, wOk, nwOk, wevs, ctxA⟩ := env
  constructor
  · intro e hres hst
    cases ao with
    | failure e' => cases e' <;> simp [autoRenewal, authEvents] at hst
    | success s =>
      rcases hd with _ | h
      · simp [autoRenewal, writeToken, authEvents] at hst
      · obtain ⟨sa⟩ := s
        rcases sa with _ | a
        · simp [autoRenewal, writeToken] at hres
        · cases wOk with
          | false => simp [autoRenewal, writeToken, authEvents] at hst
          | true =>
            cases nwOk with
            | false => simp [autoRenewal, writeToken, authEvents] at hst
            | true =>
              rcases hp : watchLoop wevs with ⟨r, wl⟩
              rcases r with _ | e'
              · simp [autoRenewal, writeToken, hp] at hres
              · refine ⟨[.jwtRead true, .remoteCall, .writeAttempt true,
                  .logTokenUpdated, .watcherStart] ++ wl, ?_, by simp⟩
                simp [autoRenewal, writeToken, authEvents, hp]
  · cases ao with
    | failure e' => cases e' <;> simp [autoRenewal, authEvents]
    | success s =>
      rcases hd with _ | h
      · simp [autoRenewal, writeToken, authEvents]
      · obtain ⟨sa⟩ := s
        rcases sa with _ | a
        · simp [autoRenewal, writeToken, authEvents]
        · cases wOk with
          | false => simp [autoRenewal, writeToken, authEvents]
          | true =>
            cases nwOk with
            | false => simp [autoRenewal, writeToken, authEvents]
            | true =>
              rcases hp : watchLoop wevs with ⟨r, wl⟩
              have hwl : ∀ x ∈ wl,
                  x = Event.logRenewed ∨ x = Event.logRenewError := by
                have h0 := watchLoop_mem_renew wevs
                rw [hp] at h0
                exact h0
              have hcnt : wl.count Event.watcherStart = 0 := by
                rw [List.count_eq_zero]
                intro hx
                rcases hwl _ hx with h1 | h1 <;> exact Event.noConfusion h1
              rcases r with _ | e' <;>
                simp [autoRenewal, writeToken, authEvents, hp,
                  List.count_append, hcnt, List.count_cons]

/-- C7 witness: the concrete graceful cycle returns with its watcher
stopped last. -/
theorem vault_C7_watcher_stopped_witness :
    ∃ pre, (autoRenewal envGraceful).events = pre ++ [Event.watcherStop] ∧
      Event.watcherStart ∈ pre :=
  (vault_C7_watcher_stopped envGraceful).1 none rfl (by decide)

theorem string_length_eq_zero (s : String) : s.length = 0 ↔ s = "" := by
  constructor
  · intro h
    cases s with
    | mk data =>
      cases data with
      | nil => rfl
      | cons c cs => simp [String.length] at h
  · intro h
    subst h
    rfl

/-- C8: `writeToken` issues exactly one write call, of the lease's client
token, to the fixed filename `.vault-token` under the resolved home
directory, with mode 0600 (owner read/write only); it succeeds exactly when
the home directory resolves and the write succeeds, returns the home error
exactly when the home directory cannot be resolved, returns the write error
exactly when the write fails, and has no other effect (its call list when
the home directory is unresolvable is empty). Stated for secrets carrying
an auth block (the nil-auth case is the subject of C9). -/
theorem vault_C8_writeToken_contract (home : Option String) (wOk : Bool)
    (s : Secret) (a : SecretAuth) (ha : s.auth = some a) :
    ((writeToken home wOk s).result = .ok ↔
      ((∃ h, home = some h) ∧ wOk = true)) ∧
    (∀ h, home = some h → (writeToken home wOk s).calls
      = [{ path := h ++ "/.vault-token", content := a.clientToken,
           mode := 0o600 }]) ∧
    ((writeToken home wOk s).result = .homeDirError ↔ home = none) ∧
    ((writeToken home wOk s).result = .writeError ↔
      ((∃ h, home = some h) ∧ wOk = false)) ∧
    (writeToken home wOk s).result ≠ .panicked ∧
    (home = none → (writeToken home wOk s).calls = []) := by
  rcases home with _ | h0 <;> cases wOk <;> simp [writeToken, ha]

/-- C8 witness: one concrete successful write with the expected path,
content and mode. -/
theorem vault_C8_writeToken_contract_witness :
    (writeToken (some "/root") true
      { auth := some { clientToken := "tok-W" } }).result = .ok ∧
    (writeToken (some "/root") true
      { auth := some { clientToken := "tok-W" } }).calls
      = [{ path := "/root" ++ "/.vault-token", content := "tok-W",
           mode := 0o600 }] := by
  have h := vault_C8_writeToken_contract (some "/root") true
    { auth := some { clientToken := "tok-W" } } { clientToken := "tok-W" } rfl
  exact ⟨h.1.mpr ⟨⟨"/root", rfl⟩, rfl⟩, h.2.1 "/root" rfl⟩

/-- C9: `writeToken` dereferences the secret's auth block with no nil
check: on a secret whose auth block is absent (which `ParseSecret` can
produce from a well-formed response lacking an auth block) and a resolvable
home directory, the persistence step panics before issuing any write call —
it does not return the home-directory error or the write error — so
totality of persistence needs the unstated precondition that the
authentication response contains an auth block. -/
theorem vault_C9_nil_auth_panics (h : String) (wOk : Bool) :
    writeToken (some h) wOk { auth := none }
      = { result := .panicked, calls := [] } ∧
    (writeToken (some h) wOk { auth := none }).result ≠ .homeDirError ∧
    (writeToken (some h) wOk { auth := none }).result ≠ .writeError := by
  refine ⟨rfl, ?_, ?_⟩ <;> simp [writeToken]

/-- C10: the renewal subsystem is started at process start only when the
vault role, server, token path and auth path flag values are all non-empty:
the gate is true exactly when all four are non-empty, and if any of them is
empty the vault portion of `main` is skipped entirely — no supervisor run,
hence no authentication attempt and no token write for the life of the
process. -/
theorem vault_C10_flag_gate (role server tokenPath authPath : String)
    (clientOk : Bool) (envs : List CycleEnv) (fs : Option String) :
    ((role = "" ∨ server = "" ∨ tokenPath = "" ∨ authPath = "") →
      mainVault role server tokenPath authPath clientOk envs fs
        = .notStarted ∧
      outcomeEvents (mainVault role server tokenPath authPath clientOk envs fs)
        = []) ∧
    (vaultGate role server tokenPath authPath = true ↔
      (role ≠ "" ∧ server ≠ "" ∧ tokenPath ≠ "" ∧ authPath ≠ "")) := by
  have hg : vaultGate role server tokenPath authPath = true ↔
      (role ≠ "" ∧ server ≠ "" ∧ tokenPath ≠ "" ∧ authPath ≠ "") := by
    simp [vaultGate, Bool.and_eq_true, bne_iff_ne, ne_eq,
      string_length_eq_zero, and_assoc]
  constructor
  · intro hdisj
    have hfalse : vaultGate role server tokenPath authPath = false := by
      cases hgv : vaultGate role server tokenPath authPath
      · rfl
      · obtain ⟨h1, h2, h3, h4⟩ := hg.mp hgv
        rcases hdisj with h | h | h | h
        · exact absurd h h1
        · exact absurd h h2
        · exact absurd h h3
        · exact absurd h h4
    constructor <;> simp [mainVault, hfalse, outcomeEvents]
  · exact hg

/-- C10 witness: with an empty role flag the vault subsystem is not
started and produces no events. -/
theorem vault_C10_flag_gate_witness :
    mainVault "" "https://vault.example" "/var/run/token" "kubernetes"
        true [] none = .notStarted ∧
    outcomeEvents (mainVault "" "https://vault.example" "/var/run/token"
        "kubernetes" true [] none) = [] :=
  (vault_C10_flag_gate "" "https://vault.example" "/var/run/token"
    "kubernetes" true [] none).1 (Or.inl rfl)
